import Mathlib

/-!
A shallow embedding of `waeup/identifier/testing.py`: the in-memory fake
student database with its XML-RPC operations, the basic-auth request
handler built on top of them, the virtual-home sandbox, and the fake
`fpscan` stub generator, together with theorems about these functions.

State is passed explicitly: the module-level global `fake_student_db`
becomes an argument and result of each operation that reads or writes it.
Machine-level values (bytes) are modelled as natural numbers below 256.
-/

set_option autoImplicit false

namespace WaeupTesting

/-- A byte string (Python `bytes`): a list of byte values, each `< 256`. -/
abbrev Bytes := List Nat

/-- Values transferable over XML-RPC, as far as this module inspects them:
`binary` models `xmlrpc.client.Binary` wrappers, `struct` models Python
dicts (entries kept in insertion order, as Python 3.7+ dicts do); the
remaining constructors model the other payload shapes a caller can send. -/
inductive XValue where
  | int (i : Int)
  | str (s : String)
  | boolean (b : Bool)
  | binary (data : Bytes)
  | array (elems : List XValue)
  | struct (entries : List (String × XValue))

/-- An XML-RPC fault (`xmlrpc.client.Fault`): fault code plus message. -/
structure Fault where
  faultCode : Int
  faultString : String
deriving Repr, DecidableEq

/-- The value of the constant `xmlrpc.client.INVALID_METHOD_PARAMS`. -/
def INVALID_METHOD_PARAMS : Int := -32602

/-- The magic marker `b'FP1'` (bytes `0x46 0x50 0x31`) that fingerprint
payloads must start with. -/
def fpMagic : Bytes := [70, 80, 49]

/-- Characters Python's `str.strip()` removes (the ASCII whitespace set). -/
def pyIsSpace (c : Char) : Bool :=
  c = ' ' || c = '\t' || c = '\n' || c = '\r' || c = '\x0b' || c = '\x0c'

/-- Model of Python `str.strip()`: drop whitespace from both ends. -/
def pyStrip (cs : List Char) : List Char :=
  ((cs.dropWhile pyIsSpace).reverse.dropWhile pyIsSpace).reverse

/-- Accumulating scan over the digit part of a Python integer literal:
decimal digits, with single underscores allowed only between digits.
`acc` is the value so far, `lastDigit` whether the previous character was
a digit (so that an underscore is currently allowed and the string may
end). -/
def pyDigitsAux : List Char → Nat → Bool → Option Nat
  | [], acc, lastDigit => if lastDigit then some acc else none
  | c :: rest, acc, lastDigit =>
    if c.isDigit then pyDigitsAux rest (acc * 10 + (c.toNat - 48)) true
    else if c = '_' then
      if lastDigit then pyDigitsAux rest acc false else none
    else none

/-- The digit part of a Python integer literal: a nonempty run of decimal
digits, with single underscores allowed between digits. -/
def pyDigits? (cs : List Char) : Option Nat := pyDigitsAux cs 0 false

/-- Model of Python `int(s)` after whitespace stripping: an optional sign
followed by digits. `none` models a `ValueError`. -/
def pyIntOfChars (cs : List Char) : Option Int :=
  match cs with
  | [] => none
  | c :: rest =>
    if c = '-' then (pyDigits? rest).map (fun n => -(n : Int))
    else if c = '+' then (pyDigits? rest).map (fun n => (n : Int))
    else (pyDigits? (c :: rest)).map (fun n => (n : Int))

/-- Model of Python `int(s)` on a string: strip ASCII whitespace, then
parse an optionally signed decimal numeral. `none` models a `ValueError`.
(Non-ASCII digits, accepted by CPython, do not occur in this development.) -/
def pyInt? (s : String) : Option Int := pyIntOfChars (pyStrip s.data)

/-- Per-student record: a mapping finger slot → fingerprint payload. -/
abbrev FingerDB := List (Nat × Bytes)

/-- The module-global `fake_student_db`: an insertion-ordered mapping from
student identifier to per-student record. -/
abbrev StudentDB := List (String × FingerDB)

/-- Membership test `identifier in fake_student_db.keys()`. -/
def dbHasKey (db : StudentDB) (k : String) : Bool :=
  db.any (fun p => p.1 == k)

/-- Dictionary read `fake_student_db[k]` (as an `Option`). -/
def lookupStudent (db : StudentDB) (k : String) : Option FingerDB :=
  (db.find? (fun p => p.1 == k)).map Prod.snd

/-- The keys of the student database, in insertion order. -/
def dbKeys (db : StudentDB) : List String := db.map Prod.fst

/-- Embedding of `xmlrpc_ping`: returns the tuple `('pong', x)`.
The function does not touch the student database. -/
def xmlrpc_ping (x : XValue) : String × XValue := ("pong", x)

/-- Embedding of `xmlrpc_reset_student_db`: rebinds the global database to
a fresh empty dict and returns `True`. -/
def xmlrpc_reset_student_db (_db : StudentDB) : Bool × StudentDB :=
  (true, [])

/-- Embedding of `xmlrpc_create_student`: inserts an empty record for
`student_id` when the key is absent, and returns `True`. -/
def xmlrpc_create_student (db : StudentDB) (student_id : String) :
    Bool × StudentDB :=
  if dbHasKey db student_id then (true, db)
  else (true, db ++ [(student_id, [])])

/-- The slot number the source computes for a dict key: `num = 0`, then
`num = int(str_key)` unless that raises `ValueError`. -/
def slotOf (str_key : String) : Int := (pyInt? str_key).getD 0

/-- The `for` loop of `xmlrpc_put_student_fingerprints` over
`fingerprints.items()`: entries whose slot is outside `[1, 10]` are
skipped; in-range entries must be `Binary` wrappers whose bytes start
with `b'FP1'`, else the corresponding fault aborts the call; each
accepted entry sets `result = True`. -/
def checkFingerprints : List (String × XValue) → Bool → Except Fault Bool
  | [], result => .ok result
  | (str_key, val) :: rest, result =>
    let num : Int := slotOf str_key
    if num < 1 || num > 10 then
      checkFingerprints rest result
    else
      match val with
      | .binary data =>
        if data.take 3 = fpMagic then
          checkFingerprints rest true
        else
          .error ⟨INVALID_METHOD_PARAMS,
            "Invalid file format for finger " ++ toString num⟩
      | _ =>
        .error ⟨INVALID_METHOD_PARAMS,
          "Invalid fingerprint data for finger " ++ toString num⟩

/-- Embedding of `xmlrpc_put_student_fingerprints`: the identifier must be
a known key, the fingerprints argument must be a dict, and every entry
with slot in `[1, 10]` must be a `Binary` payload starting with `b'FP1'`.
The function only reads the global database (its body contains no store),
so the database component of the result is the input database. -/
def xmlrpc_put_student_fingerprints (db : StudentDB) (identifier : String)
    (fingerprints : XValue) : Except Fault Bool × StudentDB :=
  if !(dbHasKey db identifier) then
    (.error ⟨INVALID_METHOD_PARAMS,
      "No such student: '" ++ identifier ++ "'"⟩, db)
  else
    match fingerprints with
    | .struct entries => (checkFingerprints entries false, db)
    | _ =>
      (.error ⟨INVALID_METHOD_PARAMS,
        "Invalid fingerprint data: must be dict'"⟩, db)

/-- Recognizer for `isinstance(v, dict)` on XML-RPC values. -/
def isDict : XValue → Bool
  | .struct _ => true
  | _ => false

/-- Recognizer for `isinstance(v, xmlrpc.client.Binary)`. -/
def isBinary : XValue → Bool
  | .binary _ => true
  | _ => false

/-- An entry the loop skips: its computed slot is outside `[1, 10]`. -/
def skippedEntry (kv : String × XValue) : Bool :=
  slotOf kv.1 < 1 || slotOf kv.1 > 10

/-- An entry the loop accepts: in-range slot, `Binary` payload starting
with `b'FP1'`. -/
def acceptedEntry (kv : String × XValue) : Bool :=
  !skippedEntry kv &&
    (match kv.2 with
     | .binary data => decide (data.take 3 = fpMagic)
     | _ => false)

/-- An entry that does not abort the loop: skipped or accepted. -/
def passEntry (kv : String × XValue) : Bool :=
  skippedEntry kv || acceptedEntry kv

/-- Split a character list at the first occurrence of `sep`:
`some (before, after)` when `sep` occurs, `none` otherwise. -/
def breakAt (sep : Char) : List Char → Option (List Char × List Char)
  | [] => none
  | c :: rest =>
    if c = sep then some ([], rest)
    else
      match breakAt sep rest with
      | none => none
      | some (l, r) => some (c :: l, r)

/-- Model of Python `str.partition(sep)` for a one-character separator:
`(before, sep, after)` at the first occurrence, `(s, '', '')` if absent. -/
def pyPartition (s : String) (sep : Char) : String × String × String :=
  match breakAt sep s.data with
  | none => (s, "", "")
  | some (l, r) => (⟨l⟩, String.singleton sep, ⟨r⟩)

/-- Index of a character in the standard base64 alphabet. -/
def b64Index? (c : Char) : Option Nat :=
  if 'A' ≤ c ∧ c ≤ 'Z' then some (c.toNat - 65)
  else if 'a' ≤ c ∧ c ≤ 'z' then some (c.toNat - 97 + 26)
  else if '0' ≤ c ∧ c ≤ '9' then some (c.toNat - 48 + 52)
  else if c = '+' then some 62
  else if c = '/' then some 63
  else none

/-- The standard base64 alphabet character for a sextet value `< 64`. -/
def b64Char (i : Nat) : Char :=
  if i < 26 then Char.ofNat (65 + i)
  else if i < 52 then Char.ofNat (97 + (i - 26))
  else if i < 62 then Char.ofNat (48 + (i - 52))
  else if i = 62 then '+'
  else '/'

/-- The state machine of CPython's `binascii.a2b_base64` in its default
non-strict mode, one input character at a time. `quad_pos` counts the
data characters of the current four-character group, `leftchar` holds
their leftover bits, and `pads` counts the `=` characters seen since the
last data character while at least two data characters are in the group.
A `=` completing a group of two or three data characters terminates
decoding successfully (everything after it is ignored); a `=` anywhere
else is ignored, as is any character outside the base64 alphabet; at end
of input a partially filled group is the error CPython raises
(`none`). -/
def a2bBase64Aux : List Char → Nat → Nat → Nat → Option Bytes
  | [], quad_pos, _, _ => if quad_pos = 0 then some [] else none
  | c :: rest, quad_pos, leftchar, pads =>
    if c = '=' then
      if 2 ≤ quad_pos ∧ 4 ≤ quad_pos + (pads + 1) then some []
      else if 2 ≤ quad_pos then a2bBase64Aux rest quad_pos leftchar (pads + 1)
      else a2bBase64Aux rest quad_pos leftchar pads
    else
      match b64Index? c with
      | none => a2bBase64Aux rest quad_pos leftchar pads
      | some v =>
        match quad_pos with
        | 0 => a2bBase64Aux rest 1 v 0
        | 1 => (a2bBase64Aux rest 2 (v % 16) 0).map
            (fun bs => (leftchar * 4 + v / 16) :: bs)
        | 2 => (a2bBase64Aux rest 3 (v % 4) 0).map
            (fun bs => (leftchar * 16 + v / 4) :: bs)
        | _ => (a2bBase64Aux rest 0 0 0).map
            (fun bs => (leftchar * 64 + v) :: bs)

/-- Model of `base64.b64decode` (default non-validating mode) on the text
of the header: CPython's lenient decoder ignores characters outside the
alphabet and misplaced `=` pads, accepts excess padding and data after a
terminating pad sequence, and raises `binascii.Error` (`none`) exactly
when the input ends inside a four-character group. Working on characters
agrees with `.encode()` followed by byte-level decoding, because the
UTF-8 bytes of a non-ASCII character are all `≥ 0x80` and hence ignored
like the character itself. -/
def b64decode? (s : String) : Option Bytes :=
  a2bBase64Aux s.data 0 0 0

/-- Canonical base64 encoding of a byte string (chunks of three bytes map
to four alphabet characters, the final chunk padded with `=`). -/
def b64encChars : Bytes → List Char
  | [] => []
  | [a] => [b64Char (a / 4), b64Char (a % 4 * 16), '=', '=']
  | [a, b] => [b64Char (a / 4), b64Char (a % 4 * 16 + b / 16), b64Char (b % 16 * 4), '=']
  | a :: b :: c :: rest =>
    b64Char (a / 4) :: b64Char (a % 4 * 16 + b / 16) ::
      b64Char (b % 16 * 4 + c / 64) :: b64Char (c % 64) :: b64encChars rest

/-- Canonical base64 encoding, as a string. -/
def b64encode (bs : Bytes) : String := ⟨b64encChars bs⟩

/-- Lookahead for one multi-byte UTF-8 sequence with lead byte `b ≥ 0x80`:
the decoded character and the remaining bytes, or `none` when the lead or
continuation bytes are invalid (overlong forms and surrogates excluded,
as CPython rejects them). -/
def utf8More (b : Nat) (rest : Bytes) : Option (Char × Bytes) :=
  if 194 ≤ b ∧ b ≤ 223 then
    match rest with
    | c1 :: rest2 =>
      if 128 ≤ c1 ∧ c1 ≤ 191 then
        some (Char.ofNat ((b - 192) * 64 + (c1 - 128)), rest2)
      else none
    | [] => none
  else if 224 ≤ b ∧ b ≤ 239 then
    match rest with
    | c1 :: c2 :: rest2 =>
      if (if b = 224 then 160 else 128) ≤ c1 ∧
          c1 ≤ (if b = 237 then 159 else 191) ∧ 128 ≤ c2 ∧ c2 ≤ 191 then
        some (Char.ofNat ((b - 224) * 4096 + (c1 - 128) * 64 + (c2 - 128)), rest2)
      else none
    | _ => none
  else if 240 ≤ b ∧ b ≤ 244 then
    match rest with
    | c1 :: c2 :: c3 :: rest2 =>
      if (if b = 240 then 144 else 128) ≤ c1 ∧
          c1 ≤ (if b = 244 then 143 else 191) ∧
          128 ≤ c2 ∧ c2 ≤ 191 ∧ 128 ≤ c3 ∧ c3 ≤ 191 then
        some (Char.ofNat ((b - 240) * 262144 + (c1 - 128) * 4096 +
          (c2 - 128) * 64 + (c3 - 128)), rest2)
      else none
    | _ => none
  else none

/-- Decoding loop for UTF-8, structurally recursive on a fuel bound
(every step consumes at least one byte, so fuel `≥` the byte count
suffices and the exhaustion arm is never reached from `utf8Decode?`). -/
def utf8DecodeAux : Nat → Bytes → Option (List Char)
  | _, [] => some []
  | 0, _ :: _ => none
  | fuel + 1, b :: rest =>
    if b < 128 then (utf8DecodeAux fuel rest).map (fun cs => Char.ofNat b :: cs)
    else
      match utf8More b rest with
      | none => none
      | some (c, rest2) => (utf8DecodeAux fuel rest2).map (fun cs => c :: cs)

/-- Model of `bytes.decode()` (UTF-8, strict): ASCII bytes decode to
themselves; lead bytes `0xC2..0xF4` require the proper number of valid
continuation bytes. `none` models a `UnicodeDecodeError`. -/
def utf8Decode? (bs : Bytes) : Option (List Char) := utf8DecodeAux bs.length bs

/-- Model of `str.encode()` restricted to ASCII strings: every string this
development encodes consists of ASCII characters, for which UTF-8
encoding is the identity on code points. -/
def pyEncode (s : String) : Bytes := s.data.map Char.toNat

/-- Embedding of `AuthenticatingXMLRPCRequestHandler.authenticate`: reads
the `Authorization` header line, accepts only the `Basic` scheme, base64
decodes the credentials, splits on the first colon, and compares against
the literal pair `mgr` / `mgrpw`. `Except.error ()` models an uncaught
exception (`binascii.Error` from `b64decode` or `UnicodeDecodeError` from
`.decode()`), which the handler does not catch. -/
def authenticate (auth_header_line : Option String) : Except Unit Bool :=
  match auth_header_line with
  | none => .ok false
  | some line =>
    let p := pyPartition line ' '
    if p.1 ≠ "Basic" then .ok false
    else
      match b64decode? p.2.2 with
      | none => .error ()
      | some decoded_creds =>
        match utf8Decode? decoded_creds with
        | none => .error ()
        | some cs =>
          let cp := pyPartition ⟨cs⟩ ':'
          if cp.1 = "mgr" ∧ cp.2.2 = "mgrpw" then .ok true else .ok false

/-- Outcome of the overridden `parse_request` on a syntactically valid
HTTP request (`super().parse_request()` succeeded). -/
inductive RequestOutcome where
  | dispatched
  | rejected401
  | crashed
deriving DecidableEq, Repr

/-- Embedding of `AuthenticatingXMLRPCRequestHandler.parse_request` after
the base class accepted the request: authenticated requests are
dispatched, authentication returning `False` sends a 401 error, and an
exception escaping `authenticate` crashes the handler (no response is
sent and nothing is dispatched). -/
def parse_request (auth_header_line : Option String) : RequestOutcome :=
  match authenticate auth_header_line with
  | .ok true => .dispatched
  | .ok false => .rejected401
  | .error _ => .crashed

/-- A call to one of the operations registered on
`AuthenticatingXMLRPCServer`. -/
inductive RpcCall where
  | ping (x : XValue)
  | reset_student_db
  | create_student (student_id : String)
  | put_student_fingerprints (identifier : String) (fingerprints : XValue)

/-- Dispatch of a registered operation against the current database,
pairing the XML-RPC level result (a marshalled value or a fault) with the
database afterwards. The `ping` tuple marshals as an array. -/
def dispatch (db : StudentDB) : RpcCall → Except Fault XValue × StudentDB
  | .ping x =>
    let r := xmlrpc_ping x
    (.ok (.array [.str r.1, r.2]), db)
  | .reset_student_db =>
    let r := xmlrpc_reset_student_db db
    (.ok (.boolean r.1), r.2)
  | .create_student student_id =>
    let r := xmlrpc_create_student db student_id
    (.ok (.boolean r.1), r.2)
  | .put_student_fingerprints identifier fingerprints =>
    let r := xmlrpc_put_student_fingerprints db identifier fingerprints
    (r.1.map .boolean, r.2)

/-- What the server sends back for one request: a dispatched reply, a 401
error page, or nothing at all because the handler crashed. -/
inductive HandledResponse where
  | reply (r : Except Fault XValue)
  | unauthorized
  | crashed

/-- One full request round trip: authentication gates dispatch; a request
that is not dispatched leaves the database untouched. -/
def handle_request (db : StudentDB) (auth_header_line : Option String)
    (call : RpcCall) : HandledResponse × StudentDB :=
  match parse_request auth_header_line with
  | .dispatched =>
    let r := dispatch db call
    (.reply r.1, r.2)
  | .rejected401 => (.unauthorized, db)
  | .crashed => (.crashed, db)

/-- The two environment variables `VirtualHomeProvider` touches. -/
structure EnvVars where
  path : Option String
  home : Option String
deriving DecidableEq, Repr

/-- Process-visible state the sandbox manipulates: the two environment
variables and the set of existing directories. -/
structure World where
  env : EnvVars
  dirs : List String
deriving DecidableEq, Repr

/-- Instance state of `VirtualHomeProvider` after setup: the two fresh
directories and the recorded previous variable values (`_orig_vars`). -/
structure HomeSandbox where
  path_dir : String
  home_dir : String
  orig_path : Option String
  orig_home : Option String
deriving DecidableEq, Repr

/-- Embedding of `setup_virtual_home`: `path_dir` and `home_dir` are the
fresh directories `tempfile.mkdtemp()` created; the previous values of
`PATH` and `HOME` are recorded and both variables are pointed at the new
directories. -/
def setup_virtual_home (w : World) (path_dir home_dir : String) :
    World × HomeSandbox :=
  (⟨⟨some path_dir, some home_dir⟩, w.dirs ++ [path_dir, home_dir]⟩,
   ⟨path_dir, home_dir, w.env.path, w.env.home⟩)

/-- Model of `shutil.rmtree`: removes the directory, failing (`none`, an
uncaught exception) when it does not exist. -/
def rmtree? (dirs : List String) (d : String) : Option (List String) :=
  if d ∈ dirs then some (dirs.filter (fun x => x ≠ d)) else none

/-- Restoring one environment variable: assignment when a previous value
was recorded, `del os.environ[var]` otherwise — which raises `KeyError`
(`none`) if the variable is currently absent. -/
def restoreVar (current orig : Option String) : Option (Option String) :=
  match orig with
  | none =>
    match current with
    | none => none
    | some _ => some none
  | some v => some (some v)

/-- Embedding of `teardown_virtual_home`: restore `PATH` and `HOME` from
the recorded values, then remove each temporary directory, guarded by
`os.path.exists` so that an already-removed directory is skipped.
`none` models an uncaught exception in any step. -/
def teardown_virtual_home (w : World) (sb : HomeSandbox) : Option World :=
  match restoreVar w.env.path sb.orig_path with
  | none => none
  | some path2 =>
    match restoreVar w.env.home sb.orig_home with
    | none => none
    | some home2 =>
      match
        (if sb.path_dir ∈ w.dirs then rmtree? w.dirs sb.path_dir
         else some w.dirs) with
      | none => none
      | some dirs1 =>
        match
          (if sb.home_dir ∈ dirs1 then rmtree? dirs1 sb.home_dir
           else some dirs1) with
        | none => none
        | some dirs2 => some ⟨⟨path2, home2⟩, dirs2⟩

/-- A regular file: text content and permission bits. -/
structure PyFile where
  content : String
  mode : Nat
deriving DecidableEq, Repr

/-- A file system fragment: files by path, plus the permission bits a
newly created file receives from `open(path, 'w')` (0o666 masked by the
process umask). -/
structure FileSys where
  files : List (String × PyFile)
  createMode : Nat
deriving DecidableEq, Repr

/-- File lookup by path. -/
def fsLookup (fs : FileSys) (path : String) : Option PyFile :=
  (fs.files.find? (fun p => p.1 == path)).map Prod.snd

/-- Model of `open(path, 'w').write(content)`: truncates an existing file,
keeping its permission bits, or creates a fresh one with `createMode`. -/
def fsWrite (fs : FileSys) (path : String) (content : String) : FileSys :=
  match fsLookup fs path with
  | some _ =>
    ⟨fs.files.map (fun p => if p.1 == path then (p.1, ⟨content, p.2.mode⟩) else p),
     fs.createMode⟩
  | none => ⟨fs.files ++ [(path, ⟨content, fs.createMode⟩)], fs.createMode⟩

/-- Model of `os.chmod(path, mode)`. -/
def fsChmod (fs : FileSys) (path : String) (mode : Nat) : FileSys :=
  ⟨fs.files.map (fun p => if p.1 == path then (p.1, ⟨p.2.content, mode⟩) else p),
   fs.createMode⟩

/-- Model of `os.stat(path).st_mode` (0 for a missing file; every use in
this module stats a file that exists). -/
def statMode (fs : FileSys) (path : String) : Nat :=
  match fsLookup fs path with
  | some f => f.mode
  | none => 0

/-- The permission bits a file at `path` has right after
`open(path, 'w')`: its previous bits when it already existed, the
creation mode otherwise. -/
def modeAfterOpen (fs : FileSys) (path : String) : Nat :=
  match fsLookup fs path with
  | some f => f.mode
  | none => fs.createMode

/-- The owner-execute permission bit `stat.S_IEXEC` (0o100). -/
def S_IEXEC : Nat := 64

/-- Embedding of `create_executable`: write `content` to `path`, then add
the owner-execute bit to whatever permission bits the file has. -/
def create_executable (fs : FileSys) (path : String) (content : String) :
    FileSys :=
  let fs1 := fsWrite fs path content
  fsChmod fs1 path (statMode fs1 path ||| S_IEXEC)

/-- Model of `sys.executable`: the interpreter path interpolated into the
shebang line. Its exact value is irrelevant; it contains no newline. -/
def sys_executable : String := "/usr/bin/python3"

/-- Decimal digits of a natural number below the fuel bound, most
significant first. Structural recursion on the fuel keeps the function
kernel-reducible; `fuel > n` always suffices since `n / 10 < n`. -/
def natReprAux : Nat → Nat → List Char
  | 0, _ => []
  | fuel + 1, n =>
    if n < 10 then [Nat.digitChar n]
    else natReprAux fuel (n / 10) ++ [Nat.digitChar (n % 10)]

/-- Decimal digits of a natural number, most significant first
(the digits of Python `str(n)`). -/
def natReprChars (n : Nat) : List Char := natReprAux (n + 1) n

/-- Decimal representation of an integer, as Python `'%s' % i` renders
an `int`. -/
def intReprChars (i : Int) : List Char :=
  if i < 0 then '-' :: natReprChars i.natAbs else natReprChars i.natAbs

/-- Python `'%s' % i` for an integer. -/
def pyStr (i : Int) : String := ⟨intReprChars i⟩

/-- Embedding of `create_python_script`: materialize the fixed script
template around `commands` and `ret_code` and make it executable. -/
def create_python_script (fs : FileSys) (path : String) (commands : String)
    (ret_code : Int) : FileSys :=
  create_executable fs path
    ("#!" ++ sys_executable ++ "\nimport sys\nimport time\n" ++ commands ++
      "\nsys.exit(" ++ pyStr ret_code ++ ")\n")

/-- Embedding of `create_fpscan`: generate the fake `fpscan` script in
`path_dir` whose command is `print("<output>")`, returning the new file
system and the script path. -/
def create_fpscan (fs : FileSys) (path_dir : String) (output : String)
    (ret_code : Int) : FileSys × String :=
  let path := path_dir ++ "/fpscan"
  (create_python_script fs path ("print(\"" ++ output ++ "\")") ret_code, path)

/-- Expect `cs` to start with the exact characters `pat`, returning the
remainder. -/
def stripExact : List Char → List Char → Option (List Char)
  | [], cs => some cs
  | _ :: _, [] => none
  | p :: ps, c :: cs => if c = p then stripExact ps cs else none

/-- Modelled from the spec: the observable behavior of executing a
generated stub under the Python interpreter (the interpreter itself is
outside this repository). A file of the exact generated shape — shebang
line, the two imports, `print("<literal>")` with an escape-free string
literal, `sys.exit(<integer literal>)` — prints the literal followed by a
newline and exits with the integer. Any other content is not a
well-formed stub of this shape (CPython fails with a syntax error instead
of printing the configured output) and is modelled as `none`. -/
def runStub (content : String) : Option (String × Int) :=
  match stripExact ['#', '!'] content.data with
  | none => none
  | some cs1 =>
    match breakAt '\n' cs1 with
    | none => none
    | some (_, cs2) =>
      match stripExact "import sys\nimport time\nprint(\"".data cs2 with
      | none => none
      | some cs3 =>
        match breakAt '"' cs3 with
        | none => none
        | some (lit, cs4) =>
          if lit.any (fun c => c = '\\' || c = '\n' || c = '\r') then none
          else
            match stripExact ")\nsys.exit(".data cs4 with
            | none => none
            | some cs5 =>
              match breakAt ')' cs5 with
              | none => none
              | some (arg, cs6) =>
                match pyIntOfChars arg with
                | none => none
                | some status =>
                  match stripExact ['\n'] cs6 with
                  | some [] => some ((⟨lit⟩ : String) ++ "\n", status)
                  | _ => none

/-- An output string that survives interpolation into the
`print("...")` template unchanged: no quote, backslash, or newline. -/
def safeOutput (s : String) : Bool :=
  s.data.all (fun c => !(c = '"' || c = '\\' || c = '\n' || c = '\r'))

/-- The content of the `fpscan` file generated by `create_fpscan` (empty
string if, impossibly, the file is missing). -/
def stubContentOf (fs : FileSys) (path_dir output : String) (ret_code : Int) :
    String :=
  match fsLookup (create_fpscan fs path_dir output ret_code).1
      (create_fpscan fs path_dir output ret_code).2 with
  | some f => f.content
  | none => ""

/-- An empty file system whose fresh files get mode 0o644. -/
def emptyFS : FileSys := ⟨[], 420⟩

/-- The fault an in-range entry raises when it fails validation: the
wrapper-type message for non-`Binary` payloads, the file-format message
for `Binary` payloads without the `b'FP1'` marker. -/
def entryFault (kv : String × XValue) : Fault :=
  match kv.2 with
  | .binary _ =>
    ⟨INVALID_METHOD_PARAMS, "Invalid file format for finger " ++ toString (slotOf kv.1)⟩
  | _ =>
    ⟨INVALID_METHOD_PARAMS, "Invalid fingerprint data for finger " ++ toString (slotOf kv.1)⟩

/-- Strings made of ASCII characters only (for these, `pyEncode` agrees
exactly with `str.encode()`). -/
def isAscii (s : String) : Bool := s.data.all (fun c => c.toNat < 128)

/-! ### Lemmas about the fingerprint validation loop -/

theorem checkFingerprints_nil (r : Bool) : checkFingerprints [] r = .ok r := rfl

theorem checkFingerprints_cons (k : String) (v : XValue)
    (t : List (String × XValue)) (r : Bool) :
    checkFingerprints ((k, v) :: t) r =
      if skippedEntry (k, v) then checkFingerprints t r
      else if acceptedEntry (k, v) then checkFingerprints t true
      else .error (entryFault (k, v)) := by
  have hsk : skippedEntry (k, v) =
      (decide (slotOf k < 1) || decide (slotOf k > 10)) := rfl
  cases hguard : (decide (slotOf k < 1) || decide (slotOf k > 10)) with
  | false =>
    cases v with
    | binary data =>
      by_cases hm : data.take 3 = fpMagic
      · simp [checkFingerprints, acceptedEntry, entryFault, hsk, hguard, hm]
      · simp [checkFingerprints, acceptedEntry, entryFault, hsk, hguard, hm]
    | int i => simp [checkFingerprints, acceptedEntry, entryFault, hsk, hguard]
    | str s => simp [checkFingerprints, acceptedEntry, entryFault, hsk, hguard]
    | boolean b => simp [checkFingerprints, acceptedEntry, entryFault, hsk, hguard]
    | array es => simp [checkFingerprints, acceptedEntry, entryFault, hsk, hguard]
    | struct es => simp [checkFingerprints, acceptedEntry, entryFault, hsk, hguard]
  | true =>
    simp [checkFingerprints, hsk, hguard]

theorem skippedEntry_not_accepted (kv : String × XValue)
    (h : skippedEntry kv = true) : acceptedEntry kv = false := by
  simp [acceptedEntry, h]

theorem checkFingerprints_append (pre t : List (String × XValue)) (r : Bool)
    (h : pre.all passEntry = true) :
    checkFingerprints (pre ++ t) r =
      checkFingerprints t (r || pre.any acceptedEntry) := by
  induction pre generalizing r with
  | nil => simp
  | cons kv rest ih =>
    obtain ⟨k, v⟩ := kv
    rw [List.all_cons, Bool.and_eq_true] at h
    obtain ⟨h1, h2⟩ := h
    rw [List.cons_append, checkFingerprints_cons]
    cases hs : skippedEntry (k, v) with
    | true =>
      rw [if_pos rfl, ih r h2, List.any_cons,
        skippedEntry_not_accepted _ hs, Bool.false_or]
    | false =>
      have ha : acceptedEntry (k, v) = true := by
        simpa [passEntry, hs] using h1
      rw [if_neg (by simp), if_pos ha, ih true h2, List.any_cons, ha]
      simp

theorem checkFingerprints_of_all_pass (t : List (String × XValue)) (r : Bool)
    (h : t.all passEntry = true) :
    checkFingerprints t r = .ok (r || t.any acceptedEntry) := by
  have := checkFingerprints_append t [] r h
  simpa using this

theorem all_pass_of_checkFingerprints_ok (t : List (String × XValue))
    (r b : Bool) (h : checkFingerprints t r = .ok b) :
    t.all passEntry = true := by
  induction t generalizing r with
  | nil => rfl
  | cons kv rest ih =>
    obtain ⟨k, v⟩ := kv
    rw [checkFingerprints_cons] at h
    rw [List.all_cons, Bool.and_eq_true]
    cases hs : skippedEntry (k, v) with
    | true =>
      rw [if_pos hs] at h  -- hmm hs : _ = true; condition is `skippedEntry (k,v) = true`
      exact ⟨by simp [passEntry, hs], ih r h⟩
    | false =>
      rw [if_neg (by simp [hs])] at h
      cases ha : acceptedEntry (k, v) with
      | true =>
        rw [if_pos (by simp [ha])] at h
        exact ⟨by simp [passEntry, ha], ih true h⟩
      | false =>
        rw [if_neg (by simp [ha])] at h
        exact absurd h (by simp)

theorem checkFingerprints_first_fault (pre t : List (String × XValue))
    (kv : String × XValue) (r : Bool)
    (hpre : pre.all passEntry = true)
    (hs : skippedEntry kv = false) (ha : acceptedEntry kv = false) :
    checkFingerprints (pre ++ kv :: t) r = .error (entryFault kv) := by
  obtain ⟨k, v⟩ := kv
  rw [checkFingerprints_append pre _ r hpre, checkFingerprints_cons,
    if_neg (by simp [hs]), if_neg (by simp [ha])]

theorem put_db_unchanged (db : StudentDB) (identifier : String)
    (fingerprints : XValue) :
    (xmlrpc_put_student_fingerprints db identifier fingerprints).2 = db := by
  unfold xmlrpc_put_student_fingerprints
  split
  · rfl
  · split <;> rfl

theorem checkFingerprints_middle_skip (kv : String × XValue)
    (pre post : List (String × XValue)) (r : Bool)
    (h : skippedEntry kv = true) :
    checkFingerprints (pre ++ kv :: post) r = checkFingerprints (pre ++ post) r := by
  induction pre generalizing r with
  | nil =>
    obtain ⟨k, v⟩ := kv
    simp [checkFingerprints_cons, h]
  | cons kv2 rest ih =>
    obtain ⟨k2, v2⟩ := kv2
    rw [List.cons_append, List.cons_append, checkFingerprints_cons,
      checkFingerprints_cons]
    split
    · exact ih r
    · split
      · exact ih true
      · rfl

theorem dbHasKey_iff_mem (db : StudentDB) (k : String) :
    dbHasKey db k = true ↔ k ∈ dbKeys db := by
  simp [dbHasKey, dbKeys, List.any_eq_true, List.mem_map, beq_iff_eq]

theorem createStudent_hasKey (db : StudentDB) (sid : String) :
    dbHasKey (xmlrpc_create_student db sid).2 sid = true := by
  by_cases h : dbHasKey db sid = true
  · have e : (xmlrpc_create_student db sid).2 = db := by
      simp [xmlrpc_create_student, h]
    rw [e]
    exact h
  · have hf : dbHasKey db sid = false := eq_false_of_ne_true h
    have e : (xmlrpc_create_student db sid).2 = db ++ [(sid, [])] := by
      simp [xmlrpc_create_student, hf]
    rw [e]
    simp [dbHasKey, List.any_append]

/-! ### The claims -/

/-- C1: `put_student_fingerprints` validates in a fixed order, each
failure aborting the whole call with an invalid-method-parameters fault
carrying the exact literal message: an unknown identifier faults with
`No such student: '<identifier>'` (whatever the fingerprints argument
is); then a non-dict fingerprints argument faults with
`Invalid fingerprint data: must be dict'` (stray apostrophe included);
then the first in-range entry (earlier entries all passing) that is not a
`Binary` wrapper faults with `Invalid fingerprint data for finger <num>`,
and one whose bytes do not start with `b'FP1'` faults with
`Invalid file format for finger <num>`. In every case the returned
database is exactly the input database. -/
theorem put_student_fingerprints_validation :
    (∀ (db : StudentDB) (identifier : String) (fingerprints : XValue),
      dbHasKey db identifier = false →
      xmlrpc_put_student_fingerprints db identifier fingerprints =
        (.error ⟨INVALID_METHOD_PARAMS,
          "No such student: '" ++ identifier ++ "'"⟩, db)) ∧
    (∀ (db : StudentDB) (identifier : String) (fingerprints : XValue),
      dbHasKey db identifier = true → isDict fingerprints = false →
      xmlrpc_put_student_fingerprints db identifier fingerprints =
        (.error ⟨INVALID_METHOD_PARAMS,
          "Invalid fingerprint data: must be dict'"⟩, db)) ∧
    (∀ (db : StudentDB) (identifier k : String) (v : XValue)
        (pre rest : List (String × XValue)),
      dbHasKey db identifier = true → pre.all passEntry = true →
      skippedEntry (k, v) = false → isBinary v = false →
      xmlrpc_put_student_fingerprints db identifier
          (.struct (pre ++ (k, v) :: rest)) =
        (.error ⟨INVALID_METHOD_PARAMS,
          "Invalid fingerprint data for finger " ++ toString (slotOf k)⟩, db)) ∧
    (∀ (db : StudentDB) (identifier k : String) (data : Bytes)
        (pre rest : List (String × XValue)),
      dbHasKey db identifier = true → pre.all passEntry = true →
      skippedEntry (k, .binary data) = false → data.take 3 ≠ fpMagic →
      xmlrpc_put_student_fingerprints db identifier
          (.struct (pre ++ (k, .binary data) :: rest)) =
        (.error ⟨INVALID_METHOD_PARAMS,
          "Invalid file format for finger " ++ toString (slotOf k)⟩, db)) := by
  refine ⟨?_, ?_, ?_, ?_⟩
  · intro db identifier fingerprints h
    simp [xmlrpc_put_student_fingerprints, h]
  · intro db identifier fingerprints h hd
    cases fingerprints <;>
      simp_all [xmlrpc_put_student_fingerprints, isDict]
  · intro db identifier k v pre rest h hpre hs hb
    have ha : acceptedEntry (k, v) = false := by
      cases v <;> simp_all [acceptedEntry, isBinary]
    have hef : entryFault (k, v) =
        ⟨INVALID_METHOD_PARAMS,
          "Invalid fingerprint data for finger " ++ toString (slotOf k)⟩ := by
      cases v <;> simp_all [entryFault, isBinary]
    simp [xmlrpc_put_student_fingerprints, h,
      checkFingerprints_first_fault pre rest (k, v) false hpre hs ha, hef]
  · intro db identifier k data pre rest h hpre hs hm
    have ha : acceptedEntry (k, .binary data) = false := by
      simp [acceptedEntry, hm]
    have hef : entryFault (k, .binary data) =
        ⟨INVALID_METHOD_PARAMS,
          "Invalid file format for finger " ++ toString (slotOf k)⟩ := by
      simp [entryFault]
    simp [xmlrpc_put_student_fingerprints, h,
      checkFingerprints_first_fault pre rest (k, .binary data) false hpre hs ha,
      hef]

/-- Witness for C1: each validation failure evaluated at a concrete
input, with the literal fault message. -/
theorem put_student_fingerprints_validation_witness :
    xmlrpc_put_student_fingerprints [] "unknown" (.struct []) =
      (.error ⟨INVALID_METHOD_PARAMS, "No such student: 'unknown'"⟩, []) ∧
    xmlrpc_put_student_fingerprints [("S1", [])] "S1" (.int 3) =
      (.error ⟨INVALID_METHOD_PARAMS,
        "Invalid fingerprint data: must be dict'"⟩, [("S1", [])]) ∧
    xmlrpc_put_student_fingerprints [("S1", [])] "S1"
        (.struct [("2", .str "x")]) =
      (.error ⟨INVALID_METHOD_PARAMS,
        "Invalid fingerprint data for finger 2"⟩, [("S1", [])]) ∧
    xmlrpc_put_student_fingerprints [("S1", [])] "S1"
        (.struct [("2", .binary [66, 65, 68])]) =
      (.error ⟨INVALID_METHOD_PARAMS,
        "Invalid file format for finger 2"⟩, [("S1", [])]) := by
  refine ⟨?_, ?_, ?_, ?_⟩
  · exact put_student_fingerprints_validation.1 [] "unknown" (.struct []) (by decide)
  · exact put_student_fingerprints_validation.2.1 [("S1", [])] "S1" (.int 3)
      (by decide) (by decide)
  · have h := put_student_fingerprints_validation.2.2.1 [("S1", [])] "S1" "2"
      (.str "x") [] [] (by decide) (by decide) (by decide) (by decide)
    simpa using h
  · have h := put_student_fingerprints_validation.2.2.2 [("S1", [])] "S1" "2"
      [66, 65, 68] [] [] (by decide) (by decide) (by decide) (by decide)
    simpa using h

/-- C2: keys that do not parse as integers get slot 0; entries whose slot
is outside `[1, 10]` are removable without changing the outcome (silently
skipped, no fault); when the call returns rather than faulting, it
returns `true` exactly when some entry was accepted (in-range slot whose
`Binary` payload starts with `b'FP1'` — and every in-range entry passed),
and an empty dict returns `false`. -/
theorem put_student_fingerprints_result :
    (∀ k : String, pyInt? k = none → slotOf k = 0) ∧
    (∀ (db : StudentDB) (identifier : String) (kv : String × XValue)
        (pre post : List (String × XValue)),
      skippedEntry kv = true →
      xmlrpc_put_student_fingerprints db identifier
          (.struct (pre ++ kv :: post)) =
        xmlrpc_put_student_fingerprints db identifier (.struct (pre ++ post))) ∧
    (∀ (db : StudentDB) (identifier : String)
        (entries : List (String × XValue)) (b : Bool) (db2 : StudentDB),
      xmlrpc_put_student_fingerprints db identifier (.struct entries) =
        (.ok b, db2) →
      b = entries.any acceptedEntry ∧ entries.all passEntry = true ∧ db2 = db) ∧
    (∀ (db : StudentDB) (identifier : String),
      dbHasKey db identifier = true →
      xmlrpc_put_student_fingerprints db identifier (.struct []) =
        (.ok false, db)) := by
  refine ⟨?_, ?_, ?_, ?_⟩
  · intro k h
    simp [slotOf, h]
  · intro db identifier kv pre post hskip
    by_cases h : dbHasKey db identifier
    · simp [xmlrpc_put_student_fingerprints, h,
        checkFingerprints_middle_skip kv pre post false hskip]
    · simp [xmlrpc_put_student_fingerprints, h]
  · intro db identifier entries b db2 heq
    by_cases h : dbHasKey db identifier
    · rw [xmlrpc_put_student_fingerprints] at heq
      rw [h] at heq
      simp only [Bool.not_true, Bool.false_eq_true, if_false] at heq
      have hck : checkFingerprints entries false = .ok b := congrArg Prod.fst heq
      have hdb : db = db2 := congrArg Prod.snd heq
      have hpass := all_pass_of_checkFingerprints_ok entries false b hck
      have := checkFingerprints_of_all_pass entries false hpass
      rw [this] at hck
      have hb : (false || entries.any acceptedEntry) = b := by
        injection hck
      refine ⟨?_, hpass, hdb.symm⟩
      rw [← hb, Bool.false_or]
    · rw [xmlrpc_put_student_fingerprints] at heq
      rw [eq_false_of_ne_true h] at heq
      simp at heq
  · intro db identifier h
    simp [xmlrpc_put_student_fingerprints, h, checkFingerprints]

/-- Witness for C2: after creating `S1`, a dict with slots 1 and 11 is
equivalent to one with only slot 1 (slot 11 silently skipped), and a
returning call's result is characterized by its accepted entries. -/
theorem put_student_fingerprints_result_witness :
    (xmlrpc_put_student_fingerprints [("S1", [])] "S1"
        (.struct [("1", .binary [70, 80, 49, 7]), ("11", .binary [70, 80, 49, 7])]) =
      xmlrpc_put_student_fingerprints [("S1", [])] "S1"
        (.struct [("1", .binary [70, 80, 49, 7])])) ∧
    (true = [("1", XValue.binary [70, 80, 49, 7]),
        ("11", XValue.binary [70, 80, 49, 7])].any acceptedEntry ∧
      [("1", XValue.binary [70, 80, 49, 7]),
        ("11", XValue.binary [70, 80, 49, 7])].all passEntry = true ∧
      ([("S1", [])] : StudentDB) = [("S1", [])]) := by
  constructor
  · have h := put_student_fingerprints_result.2.1 [("S1", [])] "S1"
      ("11", .binary [70, 80, 49, 7]) [("1", .binary [70, 80, 49, 7])] []
      (by decide)
    simpa using h
  · exact put_student_fingerprints_result.2.2.1 [("S1", [])] "S1"
      [("1", .binary [70, 80, 49, 7]), ("11", .binary [70, 80, 49, 7])]
      true [("S1", [])] rfl

/-- C3 counterexample: a successful submission does not store anything —
after a call that returns `true` for student `S1`, the per-student record
of `S1` is still the empty mapping, not the submitted payload. -/
theorem put_student_fingerprints_no_store_cex :
    xmlrpc_put_student_fingerprints [("S1", [])] "S1"
        (.struct [("1", .binary [70, 80, 49, 0])]) =
      (.ok true, [("S1", [])]) ∧
    lookupStudent (xmlrpc_put_student_fingerprints [("S1", [])] "S1"
        (.struct [("1", .binary [70, 80, 49, 0])])).2 "S1" = some [] :=
  ⟨rfl, rfl⟩

/-- C3 amended: `put_student_fingerprints` only validates and never
stores: for every input — including calls that return `true` — the
database after the call equals the database before it, and the
per-student record of the identifier is unchanged. -/
theorem put_student_fingerprints_pure_validation :
    ∀ (db : StudentDB) (identifier : String) (fingerprints : XValue),
      (xmlrpc_put_student_fingerprints db identifier fingerprints).2 = db ∧
      lookupStudent
          (xmlrpc_put_student_fingerprints db identifier fingerprints).2
          identifier =
        lookupStudent db identifier := by
  intro db identifier fingerprints
  refine ⟨put_db_unchanged db identifier fingerprints, ?_⟩
  rw [put_db_unchanged]

/-- C6: `create_student` always returns `True`; it leaves the database
unchanged when the identifier exists (contents included) and appends an
empty record when it does not; a second call with the same identifier
changes nothing, and starting from a well-formed database the identifier
ends up with exactly one record. -/
theorem create_student_idempotent :
    (∀ (db : StudentDB) (student_id : String),
      (xmlrpc_create_student db student_id).1 = true) ∧
    (∀ (db : StudentDB) (student_id : String),
      dbHasKey db student_id = true →
      (xmlrpc_create_student db student_id).2 = db) ∧
    (∀ (db : StudentDB) (student_id : String),
      dbHasKey db student_id = false →
      (xmlrpc_create_student db student_id).2 = db ++ [(student_id, [])]) ∧
    (∀ (db : StudentDB) (student_id : String),
      xmlrpc_create_student (xmlrpc_create_student db student_id).2 student_id =
        (true, (xmlrpc_create_student db student_id).2)) ∧
    (∀ (db : StudentDB) (student_id : String),
      (dbKeys db).Nodup →
      (dbKeys (xmlrpc_create_student
          (xmlrpc_create_student db student_id).2 student_id).2).count
          student_id = 1 ∧
      (dbKeys (xmlrpc_create_student db student_id).2).Nodup) := by
  have hret : ∀ (db : StudentDB) (sid : String),
      (xmlrpc_create_student db sid).1 = true := by
    intro db sid
    unfold xmlrpc_create_student
    split <;> rfl
  have hidem : ∀ (db : StudentDB) (sid : String),
      xmlrpc_create_student (xmlrpc_create_student db sid).2 sid =
        (true, (xmlrpc_create_student db sid).2) := by
    intro db sid
    set X := (xmlrpc_create_student db sid).2 with hX
    have h : dbHasKey X sid = true := createStudent_hasKey db sid
    simp [xmlrpc_create_student, h]
  refine ⟨hret, ?_, ?_, hidem, ?_⟩
  · intro db sid h
    simp [xmlrpc_create_student, h]
  · intro db sid h
    simp [xmlrpc_create_student, h]
  · intro db sid hnd
    have e2 : (xmlrpc_create_student (xmlrpc_create_student db sid).2 sid).2 =
        (xmlrpc_create_student db sid).2 := by
      rw [hidem]
    rw [e2]
    by_cases h : dbHasKey db sid
    · have e1 : (xmlrpc_create_student db sid).2 = db := by
        simp [xmlrpc_create_student, h]
      rw [e1]
      exact ⟨List.count_eq_one_of_mem hnd ((dbHasKey_iff_mem db sid).mp h), hnd⟩
    · have e1 : (xmlrpc_create_student db sid).2 = db ++ [(sid, [])] := by
        simp [xmlrpc_create_student, h]
      have hmem : sid ∉ dbKeys db := fun hm =>
        h ((dbHasKey_iff_mem db sid).mpr hm)
      have hkeys : dbKeys (db ++ [(sid, [])]) = dbKeys db ++ [sid] := by
        simp [dbKeys]
      rw [e1, hkeys]
      constructor
      · rw [List.count_append]
        rw [List.count_eq_zero.mpr hmem]
        simp
      · rw [List.nodup_append]
        refine ⟨hnd, List.nodup_singleton sid, ?_⟩
        intro a ha hb
        simp at hb
        exact hmem (hb ▸ ha)

/-- Witness for C6: creating `S1` twice in an empty store, and creating
an already existing `S1` whose record has contents. -/
theorem create_student_idempotent_witness :
    (xmlrpc_create_student (xmlrpc_create_student [] "S1").2 "S1" =
      (true, (xmlrpc_create_student [] "S1").2)) ∧
    ((dbKeys (xmlrpc_create_student
        (xmlrpc_create_student [] "S1").2 "S1").2).count "S1" = 1 ∧
      (dbKeys (xmlrpc_create_student [] "S1").2).Nodup) ∧
    (xmlrpc_create_student [("S1", [(2, [9])])] "S1").2 = [("S1", [(2, [9])])] := by
  refine ⟨create_student_idempotent.2.2.2.1 [] "S1",
    create_student_idempotent.2.2.2.2 [] "S1" (by decide),
    create_student_idempotent.2.1 [("S1", [(2, [9])])] "S1" (by decide)⟩

/-- C7: `reset_student_db` empties the store and returns `True` for every
prior state, and doing it twice is the same as doing it once. -/
theorem reset_student_db_clears :
    ∀ db : StudentDB,
      xmlrpc_reset_student_db db = (true, []) ∧
      xmlrpc_reset_student_db (xmlrpc_reset_student_db db).2 =
        xmlrpc_reset_student_db db :=
  fun _ => ⟨rfl, rfl⟩

/-- C9: `put_student_fingerprints` leaves the store unchanged on every
input and outcome, `ping` leaves it unchanged, and among the registered
operations only `create_student` and `reset_student_db` can modify it. -/
theorem record_store_frame :
    (∀ (db : StudentDB) (identifier : String) (fingerprints : XValue),
      (xmlrpc_put_student_fingerprints db identifier fingerprints).2 = db) ∧
    (∀ (db : StudentDB) (x : XValue), (dispatch db (.ping x)).2 = db) ∧
    (∀ (db : StudentDB) (call : RpcCall),
      (dispatch db call).2 = db ∨
        (∃ sid, call = .create_student sid) ∨ call = .reset_student_db) := by
  refine ⟨put_db_unchanged, fun db x => rfl, ?_⟩
  intro db call
  cases call with
  | ping x => exact Or.inl rfl
  | reset_student_db => exact Or.inr (Or.inr rfl)
  | create_student sid => exact Or.inr (Or.inl ⟨sid, rfl⟩)
  | put_student_fingerprints identifier fingerprints =>
    exact Or.inl (put_db_unchanged db identifier fingerprints)

/-- C10: when every key of the dict is non-numeric or parses to a slot
outside `[1, 10]`, the call raises no fault and returns `false` no matter
what the associated values are — the value checks apply only to in-range
entries. -/
theorem put_skipped_values_uninspected :
    ∀ (db : StudentDB) (identifier : String)
      (entries : List (String × XValue)),
      dbHasKey db identifier = true →
      entries.all skippedEntry = true →
      xmlrpc_put_student_fingerprints db identifier (.struct entries) =
        (.ok false, db) := by
  intro db identifier entries h hskip
  rw [List.all_eq_true] at hskip
  have hpass : entries.all passEntry = true := by
    rw [List.all_eq_true]
    intro kv hkv
    simp [passEntry, hskip kv hkv]
  have hacc : entries.any acceptedEntry = false := by
    rw [List.any_eq_false]
    intro kv hkv
    simp [skippedEntry_not_accepted kv (hskip kv hkv)]
  simp [xmlrpc_put_student_fingerprints, h,
    checkFingerprints_of_all_pass entries false hpass, hacc]

/-- Witness for C10: non-numeric and out-of-range keys with assorted
invalid values (a plain int, a string, a `Binary` without the marker)
produce `false` and no fault. -/
theorem put_skipped_values_uninspected_witness :
    xmlrpc_put_student_fingerprints [("S1", [])] "S1"
        (.struct [("abc", .int 7), ("0", .str "x"), ("11", .binary [0])]) =
      (.ok false, [("S1", [])]) :=
  put_skipped_values_uninspected [("S1", [])] "S1"
    [("abc", .int 7), ("0", .str "x"), ("11", .binary [0])]
    (by decide) (by decide)

/-! ### The virtual home sandbox -/

theorem restoreVar_some_current (x : String) (orig : Option String) :
    restoreVar (some x) orig = some orig := by
  cases orig <;> rfl

theorem teardown_after_setup (op oh : Option String) (pd hd : String)
    (bodyDirs : List String) :
    ∃ dirs2, teardown_virtual_home ⟨⟨some pd, some hd⟩, bodyDirs⟩
        ⟨pd, hd, op, oh⟩ = some ⟨⟨op, oh⟩, dirs2⟩ ∧
      pd ∉ dirs2 ∧ hd ∉ dirs2 := by
  set d1 := if pd ∈ bodyDirs then bodyDirs.filter (fun x => x ≠ pd) else bodyDirs
    with hd1
  set d2 := if hd ∈ d1 then d1.filter (fun x => x ≠ hd) else d1 with hd2
  have hpd1 : pd ∉ d1 := by
    rw [hd1]
    by_cases h : pd ∈ bodyDirs
    · rw [if_pos h]
      simp [List.mem_filter]
    · rw [if_neg h]
      exact h
  have hpd2 : pd ∉ d2 := by
    rw [hd2]
    by_cases h : hd ∈ d1
    · rw [if_pos h]
      intro hx
      exact hpd1 (List.mem_of_mem_filter hx)
    · rw [if_neg h]
      exact hpd1
  have hhd2 : hd ∉ d2 := by
    rw [hd2]
    by_cases h : hd ∈ d1
    · rw [if_pos h]
      simp [List.mem_filter]
    · rw [if_neg h]
      exact h
  have hrm : ∀ (dirs : List String) (d : String), d ∈ dirs →
      rmtree? dirs d = some (dirs.filter (fun x => x ≠ d)) := by
    intro dirs d h
    simp [rmtree?, h]
  refine ⟨d2, ?_, hpd2, hhd2⟩
  unfold teardown_virtual_home
  dsimp only
  rw [restoreVar_some_current, restoreVar_some_current]
  dsimp only
  by_cases h1 : pd ∈ bodyDirs
  · have e1 : d1 = bodyDirs.filter (fun x => x ≠ pd) := by
      rw [hd1, if_pos h1]
    rw [if_pos h1, hrm bodyDirs pd h1]
    dsimp only
    rw [← e1]
    by_cases h2 : hd ∈ d1
    · rw [if_pos h2, hrm d1 hd h2]
      dsimp only
      rw [hd2, if_pos h2]
    · rw [if_neg h2]
      dsimp only
      rw [hd2, if_neg h2]
  · have e1 : d1 = bodyDirs := by
      rw [hd1, if_neg h1]
    rw [if_neg h1]
    dsimp only
    rw [← e1]
    by_cases h2 : hd ∈ d1
    · rw [if_pos h2, hrm d1 hd h2]
      dsimp only
      rw [hd2, if_pos h2]
    · rw [if_neg h2]
      dsimp only
      rw [hd2, if_neg h2]

/-- C5: setup points `PATH` and `HOME` at the two fresh directories,
creates them, and records the previous variable values; teardown after
any interference of the test body with the directories succeeds, restores
both variables to exactly their prior state (same value if set, removed
if unset), and leaves neither temporary directory in existence. -/
theorem virtual_home_restore :
    ∀ (w : World) (path_dir home_dir : String) (bodyDirs : List String),
      (setup_virtual_home w path_dir home_dir).1.env =
        ⟨some path_dir, some home_dir⟩ ∧
      path_dir ∈ (setup_virtual_home w path_dir home_dir).1.dirs ∧
      home_dir ∈ (setup_virtual_home w path_dir home_dir).1.dirs ∧
      (setup_virtual_home w path_dir home_dir).2.orig_path = w.env.path ∧
      (setup_virtual_home w path_dir home_dir).2.orig_home = w.env.home ∧
      ∃ w2 : World,
        teardown_virtual_home
            ⟨(setup_virtual_home w path_dir home_dir).1.env, bodyDirs⟩
            (setup_virtual_home w path_dir home_dir).2 = some w2 ∧
        w2.env = w.env ∧ path_dir ∉ w2.dirs ∧ home_dir ∉ w2.dirs := by
  intro w pd hd bodyDirs
  refine ⟨rfl, by simp [setup_virtual_home], by simp [setup_virtual_home],
    rfl, rfl, ?_⟩
  obtain ⟨⟨op, oh⟩, wdirs⟩ := w
  obtain ⟨dirs2, he, hp, hh⟩ := teardown_after_setup op oh pd hd bodyDirs
  exact ⟨⟨⟨op, oh⟩, dirs2⟩, he, rfl, hp, hh⟩

/-! ### Decimal representation round trip -/

theorem digitChar_isDigit (m : Nat) (h : m < 10) :
    (Nat.digitChar m).isDigit = true := by
  interval_cases m <;> decide

theorem digitChar_toNat (m : Nat) (h : m < 10) :
    (Nat.digitChar m).toNat = 48 + m := by
  interval_cases m <;> decide

theorem natReprAux_digits (fuel : Nat) :
    ∀ (n : Nat) (c : Char), c ∈ natReprAux fuel n → c.isDigit = true := by
  induction fuel with
  | zero =>
    intro n c hc
    simp [natReprAux] at hc
  | succ f ih =>
    intro n c hc
    rw [natReprAux] at hc
    by_cases h : n < 10
    · rw [if_pos h] at hc
      simp at hc
      subst hc
      exact digitChar_isDigit n h
    · rw [if_neg h] at hc
      rcases List.mem_append.mp hc with h1 | h1
      · exact ih (n / 10) c h1
      · simp at h1
        subst h1
        exact digitChar_isDigit (n % 10) (by omega)

theorem natReprChars_ne_nil (n : Nat) : natReprChars n ≠ [] := by
  rw [natReprChars, natReprAux]
  by_cases h : n < 10
  · simp [h]
  · simp [h]

theorem isDigit_ne (c : Char) (h : c.isDigit = true) :
    c ≠ '-' ∧ c ≠ '+' ∧ c ≠ ')' := by
  refine ⟨?_, ?_, ?_⟩ <;> (intro e; subst e; exact absurd h (by decide))

theorem pyDigitsAux_natReprAux (fuel : Nat) :
    ∀ (n : Nat), n < fuel → ∀ (rest : List Char) (acc : Nat) (b : Bool),
    pyDigitsAux (natReprAux fuel n ++ rest) acc b =
      pyDigitsAux rest (acc * 10 ^ (natReprAux fuel n).length + n) true := by
  induction fuel with
  | zero => omega
  | succ f ih =>
    intro n hf rest acc b
    by_cases h : n < 10
    · rw [natReprAux, if_pos h, List.singleton_append]
      have hd : (Nat.digitChar n).isDigit = true := digitChar_isDigit n h
      simp [pyDigitsAux, hd, digitChar_toNat n h]
    · rw [natReprAux, if_neg h, List.append_assoc, ih (n / 10) (by omega),
        List.singleton_append]
      have hd : (Nat.digitChar (n % 10)).isDigit = true :=
        digitChar_isDigit _ (by omega)
      simp only [pyDigitsAux, hd, if_pos, digitChar_toNat (n % 10) (by omega)]
      congr 1
      rw [List.length_append, List.length_singleton, pow_succ]
      have h2 : n / 10 * 10 + n % 10 = n := by omega
      calc (acc * 10 ^ (natReprAux f (n / 10)).length + n / 10) * 10 +
            (48 + n % 10 - 48)
          = acc * (10 ^ (natReprAux f (n / 10)).length * 10) +
            (n / 10 * 10 + n % 10) := by ring_nf; omega
        _ = acc * (10 ^ (natReprAux f (n / 10)).length * 10) + n := by rw [h2]

theorem pyDigits?_natReprChars (n : Nat) :
    pyDigits? (natReprChars n) = some n := by
  have h := pyDigitsAux_natReprAux (n + 1) n (by omega) [] 0 false
  rw [List.append_nil] at h
  rw [pyDigits?, natReprChars, h]
  simp [pyDigitsAux]

theorem pyIntOfChars_intReprChars (i : Int) :
    pyIntOfChars (intReprChars i) = some i := by
  by_cases hneg : i < 0
  · rw [intReprChars, if_pos hneg]
    show (if ('-' : Char) = '-' then
        (pyDigits? (natReprChars i.natAbs)).map (fun n => -(n : Int))
      else if ('-' : Char) = '+' then
        (pyDigits? (natReprChars i.natAbs)).map (fun n => (n : Int))
      else (pyDigits? ('-' :: natReprChars i.natAbs)).map (fun n => (n : Int))) =
      some i
    rw [if_pos rfl, pyDigits?_natReprChars]
    show some (-(i.natAbs : Int)) = some i
    rw [Int.ofNat_natAbs_of_nonpos (by omega), neg_neg]
  · rw [intReprChars, if_neg hneg]
    obtain ⟨c, t, hct⟩ : ∃ c t, natReprChars i.natAbs = c :: t := by
      cases hh : natReprChars i.natAbs with
      | nil => exact absurd hh (natReprChars_ne_nil _)
      | cons c t => exact ⟨c, t, rfl⟩
    have hcd : c.isDigit = true := by
      refine natReprAux_digits (i.natAbs + 1) i.natAbs c ?_
      rw [show natReprAux (i.natAbs + 1) i.natAbs = natReprChars i.natAbs from rfl,
        hct]
      simp
    rw [hct]
    simp only [pyIntOfChars, if_neg (isDigit_ne c hcd).1,
      if_neg (isDigit_ne c hcd).2.1]
    rw [← hct, pyDigits?_natReprChars]
    show some ((i.natAbs : Int)) = some i
    exact congrArg some (Int.natAbs_of_nonneg (by omega))

/-! ### The fpscan stub generator -/

theorem stripExact_pre (p cs : List Char) : stripExact p (p ++ cs) = some cs := by
  induction p with
  | nil => rfl
  | cons c ps ih => simp [stripExact, ih]

theorem breakAt_append (c : Char) (xs ys : List Char) (h : c ∉ xs) :
    breakAt c (xs ++ c :: ys) = some (xs, ys) := by
  induction xs with
  | nil => simp [breakAt]
  | cons a rest ih =>
    have ha : ¬(a = c) := fun e => h (by simp [e])
    have h2 : c ∉ rest := fun hm => h (List.mem_cons_of_mem a hm)
    simp [breakAt, ha, ih h2]

theorem find?_map_update (g : String × PyFile → PyFile)
    (files : List (String × PyFile)) (path : String) :
    (files.map (fun p => if p.1 == path then (p.1, g p) else p)).find?
        (fun p => p.1 == path) =
      (files.find? (fun p => p.1 == path)).map (fun f => (f.1, g f)) := by
  induction files with
  | nil => rfl
  | cons hd rest ih =>
    by_cases h : (hd.1 == path) = true
    · have e1 : List.find? (fun p => p.1 == path)
          ((hd.1, g hd) :: rest.map (fun p => if p.1 == path then (p.1, g p) else p)) =
            some (hd.1, g hd) :=
        List.find?_cons_of_pos _ (by simpa using h)
      have e2 : List.find? (fun p => p.1 == path) (hd :: rest) = some hd :=
        List.find?_cons_of_pos _ h
      simp only [List.map_cons, if_pos h, e1, e2]
      rfl
    · have hf : (hd.1 == path) = false := eq_false_of_ne_true h
      have e1 : List.find? (fun p => p.1 == path)
          (hd :: rest.map (fun p => if p.1 == path then (p.1, g p) else p)) =
            List.find? (fun p => p.1 == path)
              (rest.map (fun p => if p.1 == path then (p.1, g p) else p)) :=
        List.find?_cons_of_neg _ (by simp [hf])
      have e2 : List.find? (fun p => p.1 == path) (hd :: rest) =
          List.find? (fun p => p.1 == path) rest :=
        List.find?_cons_of_neg _ (by simp [hf])
      simp only [List.map_cons, if_neg h, e1, e2, ih]

theorem find?_append_none {α : Type} (p : α → Bool) (l1 l2 : List α)
    (h : l1.find? p = none) : (l1 ++ l2).find? p = l2.find? p := by
  induction l1 with
  | nil => rfl
  | cons a t ih =>
    rw [List.find?_eq_none] at h
    rw [List.cons_append, List.find?_cons_of_neg _ (h a (by simp))]
    refine ih ?_
    rw [List.find?_eq_none]
    intro x hx
    exact h x (List.mem_cons_of_mem a hx)

theorem fsLookup_fsWrite (fs : FileSys) (path content : String) :
    fsLookup (fsWrite fs path content) path =
      some ⟨content, modeAfterOpen fs path⟩ := by
  unfold fsWrite
  cases hf : fs.files.find? (fun p => p.1 == path) with
  | none =>
    have hl : fsLookup fs path = none := by
      rw [fsLookup, hf]
      rfl
    rw [hl]
    unfold fsLookup
    dsimp only
    rw [find?_append_none _ _ _ hf]
    rw [List.find?_cons_of_pos _ (by simp)]
    rw [modeAfterOpen, hl]
    rfl
  | some pf =>
    have hl : fsLookup fs path = some pf.2 := by
      rw [fsLookup, hf]
      rfl
    rw [hl]
    unfold fsLookup
    dsimp only
    rw [find?_map_update (fun p => ⟨content, p.2.mode⟩), hf]
    rw [modeAfterOpen, hl]
    rfl

theorem fsLookup_fsChmod (fs : FileSys) (path : String) (m : Nat) :
    fsLookup (fsChmod fs path m) path =
      (fsLookup fs path).map (fun f => ⟨f.content, m⟩) := by
  unfold fsChmod fsLookup
  dsimp only
  rw [find?_map_update (fun p => ⟨p.2.content, m⟩)]
  cases fs.files.find? (fun p => p.1 == path) <;> rfl

theorem fsLookup_create_executable (fs : FileSys) (path content : String) :
    fsLookup (create_executable fs path content) path =
      some ⟨content, modeAfterOpen fs path ||| S_IEXEC⟩ := by
  unfold create_executable
  dsimp only
  rw [fsLookup_fsChmod, fsLookup_fsWrite]
  have hs : statMode (fsWrite fs path content) path = modeAfterOpen fs path := by
    rw [statMode, fsLookup_fsWrite]
  rw [hs]
  rfl

theorem runStub_generated (output : String) (i : Int)
    (hsafe : safeOutput output = true) :
    runStub ("#!" ++ sys_executable ++ "\nimport sys\nimport time\n" ++
        ("print(\"" ++ output ++ "\")") ++ "\nsys.exit(" ++ pyStr i ++ ")\n") =
      some (output ++ "\n", i) := by
  rw [safeOutput, List.all_eq_true] at hsafe
  have hq : '"' ∉ output.data := by
    intro hm
    have := hsafe '"' hm
    simp at this
  have hbs : output.data.any (fun c => c = '\\' || c = '\n' || c = '\r') = false := by
    rw [List.any_eq_false]
    intro c hc
    have := hsafe c hc
    simp at this ⊢
    tauto
  have hrp : ')' ∉ intReprChars i := by
    intro hm
    rw [intReprChars] at hm
    by_cases hneg : i < 0
    · rw [if_pos hneg] at hm
      rcases List.mem_cons.mp hm with h | h
      · exact absurd h (by decide)
      · exact absurd (natReprAux_digits _ _ _ h) (by decide)
    · rw [if_neg hneg] at hm
      exact absurd (natReprAux_digits _ _ _ hm) (by decide)
  have hnl : '\n' ∉ "/usr/bin/python3".data := by decide
  have hdata : ("#!" ++ sys_executable ++ "\nimport sys\nimport time\n" ++
      ("print(\"" ++ output ++ "\")") ++ "\nsys.exit(" ++ pyStr i ++ ")\n").data =
      ['#', '!'] ++ ("/usr/bin/python3".data ++ '\n' ::
        ("import sys\nimport time\nprint(\"".data ++ (output.data ++
          ('"' :: (")\nsys.exit(".data ++
            (intReprChars i ++ (')' :: '\n' :: []))))))) := by
    simp [sys_executable, pyStr, List.append_assoc]
  unfold runStub
  rw [hdata, stripExact_pre]
  dsimp only
  rw [breakAt_append '\n' _ _ hnl]
  dsimp only
  rw [stripExact_pre]
  dsimp only
  rw [breakAt_append '"' _ _ hq]
  dsimp only
  simp only [hbs, Bool.false_eq_true, if_false]
  rw [stripExact_pre]
  dsimp only
  rw [breakAt_append ')' _ _ hrp]
  dsimp only
  rw [pyIntOfChars_intReprChars]
  dsimp only
  rw [show stripExact ['\n'] ['\n'] = some [] from rfl]

/-- C8 counterexample: for the output string `a"b` the generated stub is
`print("a"b")` — not a well-formed print of the configured output (CPython
fails with a syntax error instead of printing it), so the stub does not
print the configured line. -/
theorem create_fpscan_quote_cex :
    stubContentOf emptyFS "/tmp" "a\"b" 0 =
      "#!/usr/bin/python3\nimport sys\nimport time\nprint(\"a\"b\")\nsys.exit(0)\n" ∧
    runStub (stubContentOf emptyFS "/tmp" "a\"b" 0) = none := by
  constructor
  · decide
  · decide

/-- C8 amended: for every target directory, exit status, and output
string that survives interpolation into the `print("...")` template (no
quote, backslash, or newline), `create_fpscan` creates the file `fpscan`
in that directory, its permission bits are the bits the file had after
opening (pre-existing, or the creation mode for a new file) plus
owner-execute, and running it prints exactly the configured output line
and exits with exactly the configured status. -/
theorem create_fpscan_stub_behavior :
    ∀ (fs : FileSys) (path_dir output : String) (ret_code : Int),
      safeOutput output = true →
      (create_fpscan fs path_dir output ret_code).2 = path_dir ++ "/fpscan" ∧
      fsLookup (create_fpscan fs path_dir output ret_code).1
          (path_dir ++ "/fpscan") =
        some ⟨"#!" ++ sys_executable ++ "\nimport sys\nimport time\n" ++
            ("print(\"" ++ output ++ "\")") ++ "\nsys.exit(" ++
            pyStr ret_code ++ ")\n",
          modeAfterOpen fs (path_dir ++ "/fpscan") ||| S_IEXEC⟩ ∧
      runStub (stubContentOf fs path_dir output ret_code) =
        some (output ++ "\n", ret_code) := by
  intro fs path_dir output ret_code hsafe
  have hl := fsLookup_create_executable fs (path_dir ++ "/fpscan")
    ("#!" ++ sys_executable ++ "\nimport sys\nimport time\n" ++
      ("print(\"" ++ output ++ "\")") ++ "\nsys.exit(" ++ pyStr ret_code ++ ")\n")
  refine ⟨rfl, hl, ?_⟩
  have hc : stubContentOf fs path_dir output ret_code =
      "#!" ++ sys_executable ++ "\nimport sys\nimport time\n" ++
        ("print(\"" ++ output ++ "\")") ++ "\nsys.exit(" ++
        pyStr ret_code ++ ")\n" := by
    unfold stubContentOf
    rw [show (create_fpscan fs path_dir output ret_code).1 =
        create_executable fs (path_dir ++ "/fpscan")
          ("#!" ++ sys_executable ++ "\nimport sys\nimport time\n" ++
            ("print(\"" ++ output ++ "\")") ++ "\nsys.exit(" ++
            pyStr ret_code ++ ")\n") from rfl]
    rw [show (create_fpscan fs path_dir output ret_code).2 =
        path_dir ++ "/fpscan" from rfl]
    rw [hl]
  rw [hc]
  exact runStub_generated output ret_code hsafe

/-- Witness for C8: the stub generated for output `ok` and status 3 in an
empty file system has the expected content and mode 0o744 and runs to
`("ok\n", 3)`. -/
theorem create_fpscan_stub_behavior_witness :
    safeOutput "ok" = true ∧
    ((create_fpscan emptyFS "/tmp" "ok" 3).2 = "/tmp/fpscan" ∧
      fsLookup (create_fpscan emptyFS "/tmp" "ok" 3).1 "/tmp/fpscan" =
        some ⟨"#!/usr/bin/python3\nimport sys\nimport time\nprint(\"ok\")\nsys.exit(3)\n",
          484⟩ ∧
      runStub (stubContentOf emptyFS "/tmp" "ok" 3) = some ("ok\n", 3)) := by
  refine ⟨by decide, ?_⟩
  have h := create_fpscan_stub_behavior emptyFS "/tmp" "ok" 3 (by decide)
  exact h

/-! ### Base64 and UTF-8 round trips for the authentication handler -/

theorem b64Index?_b64Char : ∀ i : Nat, i < 64 → b64Index? (b64Char i) = some i := by
  decide

theorem b64Char_ne_eq : ∀ i : Nat, i < 64 → b64Char i ≠ '=' := by
  decide

theorem a2b_tail1 (left : Nat) : a2bBase64Aux ['=', '='] 2 left 0 = some [] := rfl

theorem a2b_tail2 (left : Nat) : a2bBase64Aux ['='] 3 left 0 = some [] := rfl

theorem a2b_step0 (v : Nat) (hv : v < 64) (rest : List Char) (left pads : Nat) :
    a2bBase64Aux (b64Char v :: rest) 0 left pads = a2bBase64Aux rest 1 v 0 := by
  rw [a2bBase64Aux, if_neg (b64Char_ne_eq v hv), b64Index?_b64Char v hv]

theorem a2b_step1 (v : Nat) (hv : v < 64) (rest : List Char) (left pads : Nat) :
    a2bBase64Aux (b64Char v :: rest) 1 left pads =
      (a2bBase64Aux rest 2 (v % 16) 0).map (fun bs => (left * 4 + v / 16) :: bs) := by
  rw [a2bBase64Aux, if_neg (b64Char_ne_eq v hv), b64Index?_b64Char v hv]

theorem a2b_step2 (v : Nat) (hv : v < 64) (rest : List Char) (left pads : Nat) :
    a2bBase64Aux (b64Char v :: rest) 2 left pads =
      (a2bBase64Aux rest 3 (v % 4) 0).map (fun bs => (left * 16 + v / 4) :: bs) := by
  rw [a2bBase64Aux, if_neg (b64Char_ne_eq v hv), b64Index?_b64Char v hv]

theorem a2b_step3 (v : Nat) (hv : v < 64) (rest : List Char) (left pads : Nat) :
    a2bBase64Aux (b64Char v :: rest) 3 left pads =
      (a2bBase64Aux rest 0 0 0).map (fun bs => (left * 64 + v) :: bs) := by
  rw [a2bBase64Aux, if_neg (b64Char_ne_eq v hv), b64Index?_b64Char v hv]

theorem a2bBase64Aux_b64encChars :
    ∀ (n : Nat) (bs : Bytes), bs.length ≤ n → (∀ x ∈ bs, x < 256) →
    a2bBase64Aux (b64encChars bs) 0 0 0 = some bs := by
  intro n
  induction n with
  | zero =>
    intro bs hlen _
    have h0 : bs = [] := List.eq_nil_of_length_eq_zero (by omega)
    subst h0
    rfl
  | succ m ih =>
    intro bs hlen hb
    match bs with
    | [] => rfl
    | [a] =>
      have ha : a < 256 := hb a (by simp)
      show a2bBase64Aux [b64Char (a / 4), b64Char (a % 4 * 16), '=', '='] 0 0 0 =
        some [a]
      rw [a2b_step0 (a / 4) (by omega), a2b_step1 (a % 4 * 16) (by omega),
        a2b_tail1]
      simp
      omega
    | [a, b] =>
      have ha : a < 256 := hb a (by simp)
      have hb2 : b < 256 := hb b (by simp)
      show a2bBase64Aux [b64Char (a / 4), b64Char (a % 4 * 16 + b / 16),
          b64Char (b % 16 * 4), '='] 0 0 0 = some [a, b]
      rw [a2b_step0 (a / 4) (by omega),
        a2b_step1 (a % 4 * 16 + b / 16) (by omega),
        a2b_step2 (b % 16 * 4) (by omega), a2b_tail2]
      simp
      omega
    | a :: b :: c :: rest =>
      have ha : a < 256 := hb a (by simp)
      have hb2 : b < 256 := hb b (by simp)
      have hc2 : c < 256 := hb c (by simp)
      have hlen2 : rest.length ≤ m := by
        simp only [List.length_cons] at hlen
        omega
      have hrest := ih rest hlen2 (fun x hx => hb x (by simp [hx]))
      show a2bBase64Aux (b64Char (a / 4) :: b64Char (a % 4 * 16 + b / 16) ::
          b64Char (b % 16 * 4 + c / 64) :: b64Char (c % 64) ::
          b64encChars rest) 0 0 0 = some (a :: b :: c :: rest)
      rw [a2b_step0 (a / 4) (by omega),
        a2b_step1 (a % 4 * 16 + b / 16) (by omega),
        a2b_step2 (b % 16 * 4 + c / 64) (by omega),
        a2b_step3 (c % 64) (by omega), hrest]
      simp
      omega

theorem b64decode?_b64encode (bs : Bytes) (hb : ∀ b ∈ bs, b < 256) :
    b64decode? (b64encode bs) = some bs :=
  a2bBase64Aux_b64encChars bs.length bs (le_refl _) hb

theorem utf8DecodeAux_ascii (cs : List Char) :
    ∀ fuel, cs.length ≤ fuel → (∀ c ∈ cs, c.toNat < 128) →
    utf8DecodeAux fuel (cs.map Char.toNat) = some cs := by
  induction cs with
  | nil =>
    intro fuel _ _
    cases fuel <;> rfl
  | cons c t ih =>
    intro fuel hf h
    cases fuel with
    | zero => simp at hf
    | succ f =>
      have hc := h c (by simp)
      rw [List.map_cons, utf8DecodeAux, if_pos hc,
        ih f (by simp at hf; omega) (fun x hx => h x (List.mem_cons_of_mem c hx))]
      simp [Char.ofNat_toNat]

theorem utf8Decode?_ascii (cs : List Char) (h : ∀ c ∈ cs, c.toNat < 128) :
    utf8Decode? (cs.map Char.toNat) = some cs := by
  rw [utf8Decode?, List.length_map]
  exact utf8DecodeAux_ascii cs cs.length (le_refl _) h

theorem pyEncode_lt_256 (s : String) (h : isAscii s = true) :
    ∀ b ∈ pyEncode s, b < 256 := by
  rw [isAscii, List.all_eq_true] at h
  intro b hb
  obtain ⟨c, hc, rfl⟩ := List.mem_map.mp hb
  have := h c hc
  simp at this
  omega

theorem pyPartition_basic (enc : String) :
    pyPartition ("Basic " ++ enc) ' ' = ("Basic", String.singleton ' ', enc) := by
  unfold pyPartition
  have hd : ("Basic " ++ enc).data = "Basic".data ++ ' ' :: enc.data := by
    simp
  rw [hd, breakAt_append ' ' _ _ (by decide)]

theorem pyPartition_colon (user pw : String) (hc : ':' ∉ user.data) :
    pyPartition ⟨(user ++ ":" ++ pw).data⟩ ':' =
      (user, String.singleton ':', pw) := by
  unfold pyPartition
  have hd : (⟨(user ++ ":" ++ pw).data⟩ : String).data =
      user.data ++ ':' :: pw.data := by
    simp
  rw [hd, breakAt_append ':' _ _ hc]

/-- C4 counterexample: the header `Basic a` carries malformed base64, so
`authenticate` raises `binascii.Error` out of `parse_request`: the
request is neither dispatched nor answered with a 401 — the handler
crashes (the claim says every non-matching case gets a 401). The record
store is still untouched. -/
theorem auth_malformed_base64_cex :
    parse_request (some "Basic a") = .crashed ∧
    parse_request (some "Basic a") ≠ .rejected401 ∧
    handle_request [("S1", [])] (some "Basic a") (.create_student "S2") =
      (.crashed, [("S1", [])]) :=
  ⟨by decide, by decide, rfl⟩

/-- C4 amended: a request is dispatched exactly when `authenticate`
accepts it; a missing header or a non-`Basic` scheme is answered with
401; a `Basic` payload whose base64 text is undecodable (the payload
ends inside a four-character group, after the lenient decoder has
dropped non-alphabet characters and misplaced pads) makes the handler
crash instead of answering 401; for well-formed `Basic` credentials
`user:pw` (ASCII, no colon in the user), the request is dispatched
exactly for the literal pair `mgr`/`mgrpw` and otherwise rejected with
401; in every non-dispatched case no operation runs and the record
store is unchanged. The final conjunct pins the lenient decoding down
on concrete payloads CPython accepts: excess padding after complete
groups still dispatches `mgr:mgrpw`, and oddly padded or
trailing-garbage payloads decode and reach the 401 path rather than
crashing. -/
theorem basic_auth_characterization :
    (parse_request none = .rejected401) ∧
    (∀ line : String, (pyPartition line ' ').1 ≠ "Basic" →
      parse_request (some line) = .rejected401) ∧
    (∀ line : String, (pyPartition line ' ').1 = "Basic" →
      b64decode? (pyPartition line ' ').2.2 = none →
      parse_request (some line) = .crashed) ∧
    (∀ (line : String) (bs : Bytes), (pyPartition line ' ').1 = "Basic" →
      b64decode? (pyPartition line ' ').2.2 = some bs →
      utf8Decode? bs = none →
      parse_request (some line) = .crashed) ∧
    (∀ user pw : String, isAscii user = true → isAscii pw = true →
      ':' ∉ user.data →
      parse_request (some ("Basic " ++ b64encode (pyEncode (user ++ ":" ++ pw)))) =
        if user = "mgr" ∧ pw = "mgrpw" then .dispatched else .rejected401) ∧
    (∀ (db : StudentDB) (hdr : Option String) (call : RpcCall),
      parse_request hdr ≠ .dispatched →
      (handle_request db hdr call).2 = db ∧
      ∀ r, (handle_request db hdr call).1 ≠ .reply r) ∧
    (∀ hdr : Option String,
      parse_request hdr = .dispatched ↔ authenticate hdr = .ok true) ∧
    (parse_request (some "Basic bWdyOm1ncnB3==") = .dispatched ∧
      parse_request (some "Basic YQ====") = .rejected401 ∧
      parse_request (some "Basic =YQ==") = .rejected401 ∧
      parse_request (some "Basic YQ==xyz") = .rejected401 ∧
      parse_request (some "Basic YQ=x=") = .rejected401) := by
  refine ⟨rfl, ?_, ?_, ?_, ?_, ?_, ?_, by decide⟩
  · intro line h
    unfold parse_request authenticate
    dsimp only
    rw [if_pos h]
  · intro line h1 h2
    unfold parse_request authenticate
    dsimp only
    rw [if_neg (by simp [h1]), h2]
  · intro line bs h1 h2 h3
    unfold parse_request authenticate
    dsimp only
    rw [if_neg (by simp [h1]), h2]
    dsimp only
    rw [h3]
  · intro user pw hu hp hc
    have hascii : isAscii (user ++ ":" ++ pw) = true := by
      rw [isAscii, List.all_eq_true] at hu hp ⊢
      intro c hcmem
      have hd : (user ++ ":" ++ pw).data = user.data ++ ':' :: pw.data := by
        simp
      rw [hd] at hcmem
      rcases List.mem_append.mp hcmem with h | h
      · exact hu c h
      · rcases List.mem_cons.mp h with h | h
        · subst h
          decide
        · exact hp c h
    unfold parse_request authenticate
    dsimp only
    rw [pyPartition_basic]
    dsimp only
    rw [if_neg (by simp)]
    rw [b64decode?_b64encode _ (pyEncode_lt_256 _ hascii)]
    dsimp only
    rw [show pyEncode (user ++ ":" ++ pw) =
      (user ++ ":" ++ pw).data.map Char.toNat from rfl]
    rw [utf8Decode?_ascii (user ++ ":" ++ pw).data (by
      intro c hcm
      rw [isAscii, List.all_eq_true] at hascii
      simpa using hascii c hcm)]
    dsimp only
    rw [pyPartition_colon user pw hc]
    dsimp only
    by_cases hm : user = "mgr" ∧ pw = "mgrpw"
    · rw [if_pos hm, if_pos hm]
    · rw [if_neg hm, if_neg hm]
  · intro db hdr call h
    unfold handle_request
    cases hout : parse_request hdr with
    | dispatched => exact absurd hout h
    | rejected401 =>
      exact ⟨rfl, fun r heq => HandledResponse.noConfusion heq⟩
    | crashed =>
      exact ⟨rfl, fun r heq => HandledResponse.noConfusion heq⟩
  · intro hdr
    cases ha : authenticate hdr with
    | ok b =>
      cases b with
      | false =>
        unfold parse_request
        rw [ha]
        simp
      | true =>
        unfold parse_request
        rw [ha]
        simp
    | error e =>
      unfold parse_request
      rw [ha]
      simp

/-- Witness for C4: the canonical header for `mgr:mgrpw` is dispatched;
the canonical header for `foo:bar` is rejected with a 401. -/
theorem basic_auth_characterization_witness :
    parse_request (some "Basic bWdyOm1ncnB3") = .dispatched ∧
    parse_request (some "Basic Zm9vOmJhcg==") = .rejected401 := by
  constructor
  · have h := basic_auth_characterization.2.2.2.2.1 "mgr" "mgrpw"
      (by decide) (by decide) (by decide)
    rw [if_pos ⟨rfl, rfl⟩] at h
    exact h
  · have h := basic_auth_characterization.2.2.2.2.1 "foo" "bar"
      (by decide) (by decide) (by decide)
    rw [if_neg (by decide)] at h
    exact h

end WaeupTesting
